import Mathlib

/-!
Verification of the puppeteer-renderer service against its specification.

The rendering engine (headless browser) and the PDF byte codec are external
collaborators; following the spec they are treated as opaque.  A PDF buffer is
modelled by the page sequence it decodes to (`List α`), and every engine call
(`createPage`, `page.pdf`, `page.screenshot`, `page.content`, `page.close`) is
an oracle value or function supplied as a parameter.  The service code itself
(option shaping, two-pass PDF assembly, merge, page lifecycle, HTTP gateway
dispatch, content cache) is translated directly from the source.
-/

/-- A JavaScript numeric value that the service produces but never inspects:
either a numeric literal appearing in the source, or the result of applying
the JS `Number` conversion to a query string.  Kept symbolic because the
service only forwards these values to the engine. -/
inductive JsNumber where
  | lit (n : Nat)
  | parse (s : String)
deriving DecidableEq

/-- `Number(scale)` where `scale` defaults to the literal `1.0` when absent
(renderer `pdf`, line `scale = 1.0`). -/
def jsScale (scale : Option String) : JsNumber :=
  match scale with
  | none => .lit 1
  | some s => .parse s

/-- JS strict comparison `x === "true"` where `x` is a query value
(a string when supplied, `undefined` when absent). -/
def isTrueStr : Option String → Bool
  | some s => s == "true"
  | none => false

/-- The argument object handed to the engine `page.pdf` call. -/
structure RenderCall where
  extra : List (String × String)
  scale : JsNumber
  displayHeaderFooter : Bool
  printBackground : Bool
  landscape : Bool
  pageRanges : Option String
  footerTemplate : Option String
  marginBottom : Option String
deriving DecidableEq

/-- The relevant fields of `extraOptions` inside the renderer `pdf` method:
the four destructured query values plus the opaque remainder that the spread
`...extraOptions` forwards verbatim. -/
structure PdfOptions where
  scale : Option String
  displayHeaderFooter : Option String
  printBackground : Option String
  landscape : Option String
  extra : List (String × String)
deriving DecidableEq

/-- The fields the renderer `pdf` method reads from the request body. -/
structure PdfBody where
  footerTemplate : Option String
  footerFirstMarginBottom : Option String
  footerOtherMarginBottom : Option String
deriving DecidableEq

/-- Pass A of the two-pass mode: the object literal passed to `page.pdf`
with `pageRanges: '1'` (renderer `pdf`, first `page.pdf` call). -/
def passACall (o : PdfOptions) (ft : String) (firstMargin : Option String) : RenderCall :=
  { extra := o.extra
    scale := jsScale o.scale
    displayHeaderFooter := true
    printBackground := isTrueStr o.printBackground
    landscape := isTrueStr o.landscape
    pageRanges := some "1"
    footerTemplate := some ft
    marginBottom := some (firstMargin.getD "35px") }

/-- Pass B of the two-pass mode: the object literal passed to `page.pdf`
with `pageRanges: '2-'` (renderer `pdf`, second `page.pdf` call). -/
def passBCall (o : PdfOptions) (ft : String) (otherMargin : Option String) : RenderCall :=
  { extra := o.extra
    scale := jsScale o.scale
    displayHeaderFooter := true
    printBackground := isTrueStr o.printBackground
    landscape := isTrueStr o.landscape
    pageRanges := some "2-"
    footerTemplate := some ft
    marginBottom := some (otherMargin.getD "78px") }

/-- The single-pass `page.pdf` call made when no footer template is given. -/
def singlePassCall (o : PdfOptions) : RenderCall :=
  { extra := o.extra
    scale := jsScale o.scale
    displayHeaderFooter := isTrueStr o.displayHeaderFooter
    printBackground := isTrueStr o.printBackground
    landscape := isTrueStr o.landscape
    pageRanges := none
    footerTemplate := none
    marginBottom := none }

/-- Symbolic value of the JS expression
`Number(quality) || default` in the screenshot method: when `quality` is
absent `Number(undefined)` is `NaN` (falsy) and the default applies. -/
inductive JsQuality where
  | parseOr (s : String) (d : Nat)
  | lit (d : Nat)
deriving DecidableEq

/-- `quality: Number(quality) || (screenshotType === undefined ||
screenshotType === "png" ? 0 : 100)` from the screenshot method. -/
def jsQualityOf (quality screenshotType : Option String) : JsQuality :=
  let d : Nat := if screenshotType = none ∨ screenshotType = some "png" then 0 else 100
  match quality with
  | none => .lit d
  | some s => .parseOr s d

/-- JS `v || d` for a query value and a string default (`""` is falsy). -/
def jsOrStr (v : Option String) (d : String) : String :=
  match v with
  | none => d
  | some s => if s = "" then d else s

/-- The fields of `extraOptions` that the screenshot method destructures,
plus the opaque remainder forwarded by `...restOptions`. -/
structure ScreenshotOptions where
  fullPage : Option String
  omitBackground : Option String
  screenshotType : Option String
  quality : Option String
  rest : List (String × String)
deriving DecidableEq

/-- The argument object handed to the engine `page.screenshot` call. -/
structure ScreenshotCall where
  rest : List (String × String)
  type : String
  quality : JsQuality
  fullPage : Bool
  omitBackground : Bool
deriving DecidableEq

/-- `screenshotOptions` as assembled by the screenshot method. -/
def screenshotCallOf (o : ScreenshotOptions) : ScreenshotCall :=
  { rest := o.rest
    type := jsOrStr o.screenshotType "png"
    quality := jsQualityOf o.quality o.screenshotType
    fullPage := isTrueStr o.fullPage
    omitBackground := isTrueStr o.omitBackground }

/-- The loop in `mergePdfs` that copies page `i` of the body document for
each `i` in `0 ≤ i < mainDoc.getPageCount()`, in order. -/
def copyAllPages {α : Type} (main : List α) : List α :=
  (List.range main.length).filterMap fun i => main.get? i

/-- `mergePdfs(pdf1, pdf2)`: a new document holding page 1 of `pdf1`
(`copyPages(coverDoc, [0])`, which fails when the cover has no pages)
followed by every page of `pdf2` in order.  Buffers are modelled by their
decoded page sequences; `none` models the library exception. -/
def mergePdfs {α : Type} (pdf1 pdf2 : List α) : Option (List α) :=
  match pdf1.get? 0 with
  | none => none
  | some coverPage => some (coverPage :: copyAllPages pdf2)

/-- Error raised by the renderer `pdf` method: an engine failure (a rejected
`createPage` or `page.pdf` promise) or the pdf-lib exception thrown by
`mergePdfs` when the cover document has no page to copy. -/
inductive PdfError (ε : Type) where
  | engine (e : ε)
  | mergeError
deriving DecidableEq

/-- Observable actions of one renderer operation: a page opened by
`browser.newPage()`, an engine `page.pdf` call, a `mergePdfs` call, an
engine `page.screenshot` call, or an attempted `page.close` of the page
with the given id. -/
inductive Ev (α : Type) where
  | pageOpened (pid : Nat)
  | render (c : RenderCall)
  | merge (pdf1 pdf2 : List α)
  | capture (c : ScreenshotCall)
  | close (pid : Nat)
deriving DecidableEq

def openEvents {α : Type} (t : List (Ev α)) : List Nat :=
  t.filterMap fun e => match e with | .pageOpened pid => some pid | _ => none

def renderEvents {α : Type} (t : List (Ev α)) : List RenderCall :=
  t.filterMap fun e => match e with | .render c => some c | _ => none

def mergeEvents {α : Type} (t : List (Ev α)) : List (List α × List α) :=
  t.filterMap fun e => match e with | .merge p1 p2 => some (p1, p2) | _ => none

def closeEvents {α : Type} (t : List (Ev α)) : List Nat :=
  t.filterMap fun e => match e with | .close pid => some pid | _ => none

/-- Outcome of `createPage`: the method first awaits `browser.newPage()`,
which may itself reject before any page exists (`noPage`); once the page is
open, `emulateMediaType`, `authenticate` or `page.goto` may reject
(`failedAfterOpen`, e.g. a navigation timeout), in which case `createPage`
rethrows while the page it opened stays open; otherwise the open page is
returned (`ok`). -/
inductive CreateOutcome (ε : Type) where
  | noPage (e : ε)
  | failedAfterOpen (pid : Nat) (e : ε)
  | ok (pid : Nat)
deriving DecidableEq

/-- `catch (e) {}`: any rejection is swallowed. -/
def swallow {ε : Type} : Except ε Unit → Except ε Unit
  | .error _ => .ok ()
  | .ok _ => .ok ()

/-- `closePage(page)`: `try { if (page && !page.isClosed()) await page.close() }
catch (e) {}`.  `page` is the (possibly null) page, `isClosed` the value of
`page.isClosed()`, `close` the oracle outcome of `page.close()`.  Returns the
list of attempted closes and the (never failing) outcome. -/
def closePageR {ε : Type} (page : Option Nat) (isClosed : Bool)
    (close : Except ε Unit) : List Nat × Except ε Unit :=
  match page with
  | none => ([], .ok ())
  | some pid => if isClosed then ([], .ok ()) else ([pid], swallow close)

/-- The `let page = null; try { page = await this.createPage(...); ... }
finally { this.closePage(page); }` shape shared verbatim by the `html`, `pdf`
and `screenshot` methods.  `create` is the outcome of `createPage`, `body`
the method body run on the open page.  When `createPage` rejects — before or
after `browser.newPage()` opened the page — the caller's `page` local is
still null, so the `finally` block runs `closePage(null)`; a page opened by
a `createPage` that then failed (`failedAfterOpen`) is therefore never
closed here. -/
def withPage {ε εb ρ α : Type} (liftErr : ε → εb) (create : CreateOutcome ε)
    (isClosed : Bool) (close : Except ε Unit)
    (body : Nat → List (Ev α) × Except εb ρ) : List (Ev α) × Except εb ρ :=
  match create with
  | .noPage e =>
      ((closePageR none isClosed close).1.map Ev.close, .error (liftErr e))
  | .failedAfterOpen pid e =>
      (Ev.pageOpened pid :: (closePageR none isClosed close).1.map Ev.close,
       .error (liftErr e))
  | .ok pid =>
      let r := body pid
      (Ev.pageOpened pid ::
        (r.1 ++ (closePageR (some pid) isClosed close).1.map Ev.close), r.2)

/-- The body of the renderer `pdf` method after page creation: the two-pass
branch when `body.footerTemplate != null` (pass A, pass B whose failure is
caught and falls back to pass A's buffer, then `mergePdfs`), else the single
`page.pdf` call.  `render` is the engine oracle for `page.pdf`. -/
def pdfRun {ε α : Type} (render : RenderCall → Except ε (List α))
    (o : PdfOptions) (b : PdfBody) : List (Ev α) × Except (PdfError ε) (List α) :=
  match b.footerTemplate with
  | some ft =>
    let callA := passACall o ft b.footerFirstMarginBottom
    match render callA with
    | .error e => ([.render callA], .error (.engine e))
    | .ok pdf1 =>
      let callB := passBCall o ft b.footerOtherMarginBottom
      match render callB with
      | .error _ => ([.render callA, .render callB], .ok pdf1)
      | .ok pdf2 =>
        match mergePdfs pdf1 pdf2 with
        | none => ([.render callA, .render callB, .merge pdf1 pdf2], .error .mergeError)
        | some merged => ([.render callA, .render callB, .merge pdf1 pdf2], .ok merged)
  | none =>
    let c := singlePassCall o
    match render c with
    | .error e => ([.render c], .error (.engine e))
    | .ok buffer => ([.render c], .ok buffer)

/-- The renderer `pdf` method: page creation, the pdf body, and the
unconditional `closePage` in the `finally` block. -/
def pdfOp {ε α : Type} (create : CreateOutcome ε) (isClosed : Bool)
    (close : Except ε Unit) (render : RenderCall → Except ε (List α))
    (o : PdfOptions) (b : PdfBody) : List (Ev α) × Except (PdfError ε) (List α) :=
  withPage PdfError.engine create isClosed close fun _ => pdfRun render o b

/-- The renderer `html` method: page creation, `page.content()` (oracle
`content`), and the unconditional `closePage` in the `finally` block. -/
def htmlOp {ε α : Type} (create : CreateOutcome ε) (isClosed : Bool)
    (close : Except ε Unit) (content : Except ε String) :
    List (Ev α) × Except ε String :=
  withPage id create isClosed close fun _ => ([], content)

/-- The renderer `screenshot` method: page creation, assembly of
`screenshotOptions`, the capture (oracle `shoot`, covering the optional
animation wait and `page.screenshot`), the `{ screenshotType, buffer }`
result, and the unconditional `closePage` in the `finally` block. -/
def screenshotOp {ε α : Type} (create : CreateOutcome ε) (isClosed : Bool)
    (close : Except ε Unit) (shoot : ScreenshotCall → Except ε (List α))
    (o : ScreenshotOptions) :
    List (Ev α) × Except ε (Option String × List α) :=
  withPage id create isClosed close fun _ =>
    let c := screenshotCallOf o
    match shoot c with
    | .error e => ([.capture c], .error e)
    | .ok buffer => ([.capture c], .ok (o.screenshotType, buffer))

/-- Fixture: a pdf option bag with nothing supplied. -/
def noOpts : PdfOptions := ⟨none, none, none, none, []⟩

/-- Fixture: a request body carrying footer template `"F"` and no margins. -/
def footerBody : PdfBody := ⟨some "F", none, none⟩

/-- Fixture: a request body with no footer template. -/
def plainBody : PdfBody := ⟨none, none, none⟩

/-- Fixture: an engine whose pass-A render yields one page and whose pass-B
render yields two pages. -/
def engineAB : RenderCall → Except Unit (List Nat) := fun c =>
  if c.pageRanges = some "1" then .ok [5] else .ok [6, 7]

/-- Fixture: an engine whose pass-A render succeeds and whose pass-B render
rejects. -/
def engineBFails : RenderCall → Except Unit (List Nat) := fun c =>
  if c.pageRanges = some "1" then .ok [7] else .error ()

/-- One entry of the `htmlCache` object: the stored HTML and the
`validUntil` timestamp in milliseconds. -/
structure CacheEntry where
  html : String
  validUntil : Nat
deriving DecidableEq

/-- The own properties of the `htmlCache` plain object: a map from keys to
stored entries (`none` = no own property under that key). -/
abbrev Cache : Type := String → Option CacheEntry

def emptyCache : Cache := fun _ => none

/-- The property keys a plain object literal inherits from
`Object.prototype` in Node: reading one of them on `htmlCache` when no own
property shadows it yields a truthy inherited value (a built-in function,
or the prototype object itself for `__proto__`), never a cache entry. -/
def objectProtoKeys : List String :=
  ["constructor", "hasOwnProperty", "isPrototypeOf", "propertyIsEnumerable",
   "toLocaleString", "toString", "valueOf", "__proto__", "__defineGetter__",
   "__defineSetter__", "__lookupGetter__", "__lookupSetter__"]

/-- Value of the JS property read `htmlCache[key]`: an own stored entry, a
truthy member inherited from `Object.prototype` (for unstored keys naming
one of its properties), or `undefined`. -/
inductive JsLookup where
  | entry (e : CacheEntry)
  | protoMember
  | undefinedV
deriving DecidableEq

/-- `htmlCache[key]` on the plain object: the own property when present,
else the `Object.prototype` member when `key` names one, else undefined. -/
def jsRead (c : Cache) (key : String) : JsLookup :=
  match c key with
  | some e => .entry e
  | none => if key ∈ objectProtoKeys then .protoMember else .undefinedV

/-- `addToCache(key, html)`: store `html` under `key` with expiry
`1 * 60 * 1000` milliseconds from `now`. -/
def addToCache (c : Cache) (now : Nat) (key html : String) : Cache :=
  fun k => if k = key then some ⟨html, now + 1 * 60 * 1000⟩ else c k

/-- The JS value returned by `getFromCache`: a live stored entry, a truthy
`Object.prototype` member (unstored key naming one), `null` (expired entry,
deleted), or `undefined` (absent key). -/
inductive GetResultJs where
  | entry (e : CacheEntry)
  | protoMember
  | nullv
  | undefinedV
deriving DecidableEq

/-- `getFromCache(key)` at time `now`: `found = htmlCache[key]`; when
`found` is truthy and `found.validUntil < new Date()`, delete the own entry
and return null; otherwise return `found`.  For an inherited
`Object.prototype` member, `found.validUntil` is undefined and
`undefined < date` is false, so the inherited value itself is returned.
The returned pair is (result, cache after the call). -/
def getFromCache (c : Cache) (now : Nat) (key : String) :
    GetResultJs × Cache :=
  match jsRead c key with
  | .undefinedV => (.undefinedV, c)
  | .protoMember => (.protoMember, c)
  | .entry found =>
    if found.validUntil < now then (.nullv, fun k => if k = key then none else c k)
    else (.entry found, c)

/-- JS `str.split(sep)` on character lists (`"".split(sep)` is `[""]`). -/
def splitOnChar (sep : Char) : List Char → List (List Char)
  | [] => [[]]
  | c :: cs =>
    if c = sep then [] :: splitOnChar sep cs
    else
      match splitOnChar sep cs with
      | [] => [[c]]
      | g :: gs => (c :: g) :: gs

/-- Index of the last occurrence of `c`, if any. -/
def lastIndexOfAux (c : Char) : List Char → Option Nat
  | [] => none
  | a :: as =>
    match lastIndexOfAux c as with
    | some i => some (i + 1)
    | none => if a = c then some 0 else none

/-- JS `str.lastIndexOf(c)`: the index of the last occurrence, `-1` when
absent. -/
def jsLastIndexOf (c : Char) (l : List Char) : Int :=
  match lastIndexOfAux c l with
  | none => -1
  | some i => (i : Int)

def toLowerList (l : List Char) : List Char := l.map Char.toLower

def pdfSuffix : List Char := ['.', 'p', 'd', 'f']

/-- JS `filename.toLowerCase().endsWith(".pdf")`. -/
def endsWithPdf (name : List Char) : Bool :=
  pdfSuffix.isSuffixOf (toLowerList name)

/-- The filename-derivation block of the gateway's pdf branch: the hostname
when the path is root; otherwise the popped last element of the path split
on `/`, replaced by the slash-stripped path when that element is empty, then
truncated at the last dot when that dot sits at a positive index. -/
def deriveBaseFilename (hostname pathname : List Char) : List Char :=
  if pathname = ['/'] then hostname
  else
    let popped := (splitOnChar '/' pathname).getLastD []
    let fn := if popped = [] then pathname.filter (fun c => c ≠ '/') else popped
    let extDotPosition := jsLastIndexOf '.' fn
    if 0 < extDotPosition then fn.take extDotPosition.toNat else fn

/-- `if (!filename.toLowerCase().endsWith(".pdf")) filename += ".pdf";` -/
def ensurePdfExt (filename : List Char) : List Char :=
  if endsWithPdf filename then filename else filename ++ pdfSuffix

/-- The complete derived response filename for a pdf request without a
caller-supplied filename. -/
def deriveFilename (hostname pathname : List Char) : List Char :=
  ensurePdfExt (deriveBaseFilename hostname pathname)

/-- Modelled from the spec: "the last path segment" — the suffix of the path
after its final slash. -/
def lastSegment (p : List Char) : List Char :=
  (p.reverse.takeWhile (fun c => c ≠ '/')).reverse

/-- Modelled from the spec: "with its final extension stripped" — drop
everything from the last dot on, when the name carries an extension (its
last dot sits at a positive index; a pure dotfile name keeps its dot). -/
def stripFinalExt (name : List Char) : List Char :=
  match lastIndexOfAux '.' name with
  | some p => if 0 < p then name.take p else name
  | none => name

/-- Modelled from the spec: C7's filename rule exactly as claimed — the last
path segment with its final extension stripped when the path is non-root,
the hostname when the path is root, `.pdf` appended whenever the name does
not already end in `.pdf` case-insensitively. -/
def claimFilename (hostname pathname : List Char) : List Char :=
  ensurePdfExt
    (if pathname = ['/'] then hostname else stripFinalExt (lastSegment pathname))

/-- Modelled from the spec, amended: as `claimFilename`, except that when
the path ends in a slash — so its last segment is empty — the stripped name
is the whole path with every slash removed. -/
def claimFilenameAmended (hostname pathname : List Char) : List Char :=
  ensurePdfExt
    (if pathname = ['/'] then hostname
     else
       let seg := lastSegment pathname
       stripFinalExt (if seg = [] then pathname.filter (fun c => c ≠ '/') else seg))

/-- The query parameters the catch-all gateway handler destructures. -/
structure GatewayReq where
  url : Option String
  type : Option String
  filename : Option String
deriving DecidableEq

/-- An HTTP response: status, body, and the headers the service computes. -/
structure HttpResp where
  status : Nat
  body : String
  contentType : Option String
  filename : Option String
deriving DecidableEq

/-- JS falsiness of a query value (`undefined` or the empty string). -/
def jsFalsyOpt : Option String → Bool
  | none => true
  | some s => s == ""

/-- One renderer invocation made by the gateway. -/
inductive RenderInvocation where
  | pdfR (url : String)
  | screenshotR (url : String)
  | htmlR (url : String)
deriving DecidableEq

/-- JS `url.includes("://")`. -/
def includesSub (pat l : List Char) : Bool :=
  l.tails.any fun t => pat.isPrefixOf t

/-- `if (!url.includes("://")) url = "http://" + url;` -/
def normalizeUrl (u : String) : String :=
  if includesSub "://".toList u.toList then u else "http://" ++ u

/-- The response of the error middleware (`app.use((err, req, res, next)`). -/
def err500 : HttpResp := ⟨500, "Oops, Somehting went wrong", none, none⟩

/-- The 400 response for a missing `url` query parameter. -/
def hint400 : HttpResp :=
  ⟨400, "Search with url parameter. For eaxample, ?url=http://yourdomain", none, none⟩

/-- The catch-all gateway handler (`app.use`) composed with the error
middleware.  `parseURL` is the `new URL()` constructor (hostname, pathname);
`renderPdf`, `renderShot`, `renderHtml` are the renderer-operation oracles;
a rejection anywhere inside the `try` lands in `next(e)` and produces the
500 response.  Returns the renderer invocations made and the response. -/
def gatewayHandle {ε : Type} (parseURL : String → Except ε (String × String))
    (renderPdf : String → Except ε String)
    (renderShot : String → Except ε (Option String × String))
    (renderHtml : String → Except ε String)
    (req : GatewayReq) : List RenderInvocation × HttpResp :=
  if jsFalsyOpt req.url then ([], hint400)
  else
    let url := normalizeUrl (req.url.getD "")
    if req.type = some "pdf" then
      match parseURL url with
      | .error _ => ([], err500)
      | .ok (hostname, pathname) =>
        let base :=
          if jsFalsyOpt req.filename then
            deriveBaseFilename hostname.toList pathname.toList
          else (req.filename.getD "").toList
        let filename := ensurePdfExt base
        match renderPdf url with
        | .error _ => ([.pdfR url], err500)
        | .ok pdf =>
          ([.pdfR url], ⟨200, pdf, some "application/pdf", some (String.mk filename)⟩)
    else if req.type = some "screenshot" then
      match renderShot url with
      | .error _ => ([.screenshotR url], err500)
      | .ok st =>
        ([.screenshotR url], ⟨200, st.2, some ("image/" ++ jsOrStr st.1 "png"), none⟩)
    else
      match renderHtml url with
      | .error _ => ([.htmlR url], err500)
      | .ok html => ([.htmlR url], ⟨200, html, none, none⟩)

/-- Outcome of the `GET /` cache-fetch handler body. -/
inductive GetOutcome where
  | htmlResp (html : String)
  | invalidKey
  | thrown
deriving DecidableEq

/-- The `GET /` cache-fetch handler: look the key up via `getFromCache`
(possibly deleting an expired entry), then read `rep.html` — which throws a
`TypeError` when the lookup produced null/undefined, and yields undefined
(falsy, no throw) on an inherited `Object.prototype` member — and answer
with the HTML when truthy, with `"invalid key"` otherwise. -/
def getCacheHandler (c : Cache) (now : Nat) (key : String) : GetOutcome × Cache :=
  let r := getFromCache c now key
  match r.1 with
  | .undefinedV => (.thrown, r.2)
  | .nullv => (.thrown, r.2)
  | .protoMember => (.invalidKey, r.2)
  | .entry entry =>
    if entry.html == "" then (.invalidKey, r.2) else (.htmlResp entry.html, r.2)

/-- The `GET /` endpoint response, with a thrown `TypeError` routed by
express to the error middleware. -/
def getEndpointResponse (c : Cache) (now : Nat) (key : String) : HttpResp :=
  match (getCacheHandler c now key).1 with
  | .htmlResp h => ⟨200, h, some "text/html; charset=utf-8", none⟩
  | .invalidKey => ⟨200, "invalid key", none, none⟩
  | .thrown => err500

theorem copyAllPages_eq {α : Type} (l : List α) : copyAllPages l = l := by
  induction l with
  | nil => rfl
  | cons a as ih =>
    unfold copyAllPages at ih ⊢
    rw [List.length_cons, List.range_succ_eq_map, List.filterMap_cons]
    simp only [List.get?_cons_zero, List.filterMap_map, Function.comp_def,
      List.get?_cons_succ]
    rw [ih]

/-- C1: when the cover buffer decodes to at least one page (head `c`) and the
body buffer decodes to `N` pages, `mergePdfs` returns the page sequence
`c` followed by the body pages in order, of length `1 + N`, whose first page
is the cover's first page. -/
theorem mergePdfs_cover_then_body {α : Type} (cover body : List α) (c : α)
    (h : cover.head? = some c) :
    mergePdfs cover body = some (c :: body) ∧
    (c :: body).length = 1 + body.length ∧
    (c :: body).head? = cover.head? := by
  unfold mergePdfs
  rw [List.get?_zero, h, copyAllPages_eq]
  refine ⟨rfl, ?_, rfl⟩
  simp [Nat.add_comm]

/-- Witness for C1 at a concrete input. -/
theorem mergePdfs_cover_then_body_witness :
    mergePdfs [10, 20] [30, 40] = some [10, 30, 40] := by
  exact (mergePdfs_cover_then_body [10, 20] [30, 40] 10 rfl).1

theorem closeEvents_map_close {α : Type} (l : List Nat) :
    closeEvents (α := α) (l.map Ev.close) = l := by
  induction l with
  | nil => rfl
  | cons a as ih => simpa [closeEvents, List.filterMap_cons] using ih

theorem closeEvents_nil {α : Type} : closeEvents (α := α) [] = [] := rfl

theorem closeEvents_singleton {α : Type} (pid : Nat) :
    closeEvents (α := α) [Ev.close pid] = [pid] := rfl

theorem closeEvents_append {α : Type} (s t : List (Ev α)) :
    closeEvents (s ++ t) = closeEvents s ++ closeEvents t := by
  simp [closeEvents]

theorem closeEvents_pdfRun {ε α : Type} (render : RenderCall → Except ε (List α))
    (o : PdfOptions) (b : PdfBody) : closeEvents (pdfRun render o b).1 = [] := by
  unfold pdfRun
  rcases hft : b.footerTemplate with _ | ft
  · rcases hr : render (singlePassCall o) with e | buffer <;>
      simp [hft, hr, closeEvents]
  · rcases hA : render (passACall o ft b.footerFirstMarginBottom) with e | pdf1
    · simp [hft, hA, closeEvents]
    · rcases hB : render (passBCall o ft b.footerOtherMarginBottom) with e | pdf2
      · simp [hft, hA, hB, closeEvents]
      · rcases hm : mergePdfs pdf1 pdf2 with _ | merged <;>
          simp [hft, hA, hB, hm, closeEvents]

/-- C2: in two-pass mode, when pass A (page range `'1'`) succeeds with buffer
`pdf1` and pass B (page range `'2-'`) rejects with any error, the `pdf`
operation returns `pdf1` unchanged and does not propagate the pass-B error. -/
theorem pdf_passB_failure_returns_cover {ε α : Type}
    (create : CreateOutcome ε) (isClosed : Bool) (close : Except ε Unit)
    (render : RenderCall → Except ε (List α)) (o : PdfOptions) (b : PdfBody)
    (pid : Nat) (ft : String) (pdf1 : List α) (e : ε)
    (hft : b.footerTemplate = some ft)
    (hcreate : create = .ok pid)
    (hA : render (passACall o ft b.footerFirstMarginBottom) = .ok pdf1)
    (hB : render (passBCall o ft b.footerOtherMarginBottom) = .error e) :
    (pdfOp create isClosed close render o b).2 = .ok pdf1 := by
  unfold pdfOp withPage
  rw [hcreate]
  simp only [pdfRun, hft, hA, hB]

/-- Witness for C2 at a concrete input. -/
theorem pdf_passB_failure_returns_cover_witness :
    (pdfOp (CreateOutcome.ok 0) false (Except.ok ()) engineBFails noOpts footerBody).2 =
      .ok [7] := by
  exact pdf_passB_failure_returns_cover (CreateOutcome.ok 0) false (Except.ok ())
    engineBFails noOpts footerBody 0 "F" [7] () rfl rfl rfl rfl

/-- C3: with a non-null footer template, the `pdf` operation performs exactly
the two render calls pass A (`pageRanges '1'`, bottom margin the caller's
first margin or `'35px'`, the footer template, `displayHeaderFooter` forced
on) and pass B (`pageRanges '2-'`, bottom margin the caller's other margin or
`'78px'`, same template, `displayHeaderFooter` forced on), and — when both
succeed — its result is the merge of pass A's buffer with pass B's buffer. -/
theorem pdf_twoPass_calls_and_merge {ε α : Type}
    (create : CreateOutcome ε) (isClosed : Bool) (close : Except ε Unit)
    (render : RenderCall → Except ε (List α)) (o : PdfOptions) (b : PdfBody)
    (pid : Nat) (ft : String) (pdf1 pdf2 : List α)
    (hft : b.footerTemplate = some ft)
    (hcreate : create = .ok pid)
    (hA : render (passACall o ft b.footerFirstMarginBottom) = .ok pdf1)
    (hB : render (passBCall o ft b.footerOtherMarginBottom) = .ok pdf2) :
    renderEvents (pdfOp create isClosed close render o b).1 =
      [passACall o ft b.footerFirstMarginBottom,
       passBCall o ft b.footerOtherMarginBottom] ∧
    (passACall o ft b.footerFirstMarginBottom).pageRanges = some "1" ∧
    (passACall o ft b.footerFirstMarginBottom).marginBottom =
      some (b.footerFirstMarginBottom.getD "35px") ∧
    (passACall o ft b.footerFirstMarginBottom).footerTemplate = some ft ∧
    (passACall o ft b.footerFirstMarginBottom).displayHeaderFooter = true ∧
    (passBCall o ft b.footerOtherMarginBottom).pageRanges = some "2-" ∧
    (passBCall o ft b.footerOtherMarginBottom).marginBottom =
      some (b.footerOtherMarginBottom.getD "78px") ∧
    (passBCall o ft b.footerOtherMarginBottom).footerTemplate = some ft ∧
    (passBCall o ft b.footerOtherMarginBottom).displayHeaderFooter = true ∧
    (pdfOp create isClosed close render o b).2 =
      (match mergePdfs pdf1 pdf2 with
       | some merged => .ok merged
       | none => .error PdfError.mergeError) := by
  refine ⟨?_, rfl, rfl, rfl, rfl, rfl, rfl, rfl, rfl, ?_⟩ <;>
    · unfold pdfOp withPage
      rw [hcreate]
      simp only [pdfRun, hft, hA, hB]
      rcases hm : mergePdfs pdf1 pdf2 with _ | merged <;>
        rcases isClosed with _ | _ <;>
          simp [renderEvents, closePageR, closeEvents, List.filterMap_cons]

/-- Witness for C3 at a concrete input. -/
theorem pdf_twoPass_calls_and_merge_witness :
    renderEvents (pdfOp (CreateOutcome.ok 0) false (Except.ok ()) engineAB noOpts footerBody).1 =
      [passACall noOpts "F" none, passBCall noOpts "F" none] ∧
    (pdfOp (CreateOutcome.ok 0) false (Except.ok ()) engineAB noOpts footerBody).2 =
      .ok [5, 6, 7] := by
  have h := pdf_twoPass_calls_and_merge (CreateOutcome.ok 0) false (Except.ok ())
    engineAB noOpts footerBody 0 "F" [5] [6, 7] rfl rfl rfl rfl
  refine ⟨h.1, ?_⟩
  rw [h.2.2.2.2.2.2.2.2.2]
  rfl

/-- C4: with no footer template the `pdf` operation performs exactly one
engine render call and no merge; that call forwards the extra options
verbatim, coerces `displayHeaderFooter`, `printBackground` and `landscape`
to `true` exactly when the supplied string is `"true"`, and sets `scale` to
`Number(scale)` with the literal `1.0` default when absent; the operation's
outcome is exactly the engine's outcome for that one call. -/
theorem pdf_singlePass_one_render {ε α : Type}
    (create : CreateOutcome ε) (isClosed : Bool) (close : Except ε Unit)
    (render : RenderCall → Except ε (List α)) (o : PdfOptions) (b : PdfBody)
    (pid : Nat)
    (hft : b.footerTemplate = none)
    (hcreate : create = .ok pid) :
    renderEvents (pdfOp create isClosed close render o b).1 = [singlePassCall o] ∧
    mergeEvents (pdfOp create isClosed close render o b).1 = [] ∧
    (singlePassCall o).extra = o.extra ∧
    (singlePassCall o).displayHeaderFooter = (o.displayHeaderFooter == some "true") ∧
    (singlePassCall o).printBackground = (o.printBackground == some "true") ∧
    (singlePassCall o).landscape = (o.landscape == some "true") ∧
    (singlePassCall o).scale =
      (match o.scale with
       | none => JsNumber.lit 1
       | some s => JsNumber.parse s) ∧
    (pdfOp create isClosed close render o b).2 =
      (render (singlePassCall o)).mapError PdfError.engine := by
  have hcoerce : ∀ v : Option String, isTrueStr v = (v == some "true") := by
    rintro (_ | s) <;> rfl
  refine ⟨?_, ?_, rfl, hcoerce _, hcoerce _, hcoerce _, rfl, ?_⟩ <;>
    · unfold pdfOp withPage
      rw [hcreate]
      simp only [pdfRun, hft]
      rcases hr : render (singlePassCall o) with e | buffer <;>
        rcases isClosed with _ | _ <;>
          simp [renderEvents, mergeEvents, closePageR, Except.mapError,
            List.filterMap_cons]

/-- Witness for C4 at a concrete input. -/
theorem pdf_singlePass_one_render_witness :
    renderEvents (pdfOp (CreateOutcome.ok 0) false (Except.ok ()) engineAB noOpts plainBody).1 =
      [singlePassCall noOpts] ∧
    (pdfOp (CreateOutcome.ok 0) false (Except.ok ()) engineAB noOpts plainBody).2 =
      .ok [6, 7] := by
  have h := pdf_singlePass_one_render (CreateOutcome.ok 0) false (Except.ok ())
    engineAB noOpts plainBody 0 rfl rfl
  refine ⟨h.1, ?_⟩
  rw [h.2.2.2.2.2.2.2]
  rfl

theorem closeEvents_pageOpened_cons {α : Type} (pid : Nat) (t : List (Ev α)) :
    closeEvents (Ev.pageOpened pid :: t) = closeEvents t := by
  simp [closeEvents, List.filterMap_cons]

theorem openEvents_nil {α : Type} : openEvents (α := α) [] = [] := rfl

theorem openEvents_map_close {α : Type} (l : List Nat) :
    openEvents (α := α) (l.map Ev.close) = [] := by
  induction l with
  | nil => rfl
  | cons a as ih => simp [openEvents, List.filterMap_cons, ih]

theorem openEvents_close_singleton {α : Type} (pid : Nat) :
    openEvents (α := α) [Ev.close pid] = [] := rfl

theorem openEvents_append {α : Type} (s t : List (Ev α)) :
    openEvents (s ++ t) = openEvents s ++ openEvents t := by
  simp [openEvents]

theorem openEvents_pageOpened_cons {α : Type} (pid : Nat) (t : List (Ev α)) :
    openEvents (Ev.pageOpened pid :: t) = pid :: openEvents t := by
  simp [openEvents, List.filterMap_cons]

theorem openEvents_pdfRun {ε α : Type} (render : RenderCall → Except ε (List α))
    (o : PdfOptions) (b : PdfBody) : openEvents (pdfRun render o b).1 = [] := by
  unfold pdfRun
  rcases hft : b.footerTemplate with _ | ft
  · rcases hr : render (singlePassCall o) with e | buffer <;>
      simp [hft, hr, openEvents]
  · rcases hA : render (passACall o ft b.footerFirstMarginBottom) with e | pdf1
    · simp [hft, hA, openEvents]
    · rcases hB : render (passBCall o ft b.footerOtherMarginBottom) with e | pdf2
      · simp [hft, hA, hB, openEvents]
      · rcases hm : mergePdfs pdf1 pdf2 with _ | merged <;>
          simp [hft, hA, hB, hm, openEvents]

/-- C5 counterexample: a request whose `createPage` opened the page (id 3)
via `browser.newPage()` and then rejected (e.g. `page.goto` timing out)
leaves the caller's `page` local null, so the `finally` block runs
`closePage(null)` and closes nothing: a page is opened for the request but
never closed, refuting the closed-exactly-once-on-every-exit-path claim. -/
theorem page_close_claim_cex :
    openEvents (htmlOp (ε := Unit) (α := Nat)
      (CreateOutcome.failedAfterOpen 3 ()) false (Except.ok ())
      (Except.ok "h")).1 = [3] ∧
    closeEvents (htmlOp (ε := Unit) (α := Nat)
      (CreateOutcome.failedAfterOpen 3 ()) false (Except.ok ())
      (Except.ok "h")).1 = [] := by
  exact ⟨rfl, rfl⟩

/-- C5 (amended): for each of the three operations — when `createPage`
returned the page, the `finally` block closes it exactly once (none when the
error observer already closed it); when `createPage` rejected after
`browser.newPage()` had opened the page (navigation, media-emulation or
authentication failure), the opened page is never closed — a session leak —
and the error propagates; when `browser.newPage()` itself rejected, no page
exists and nothing is closed.  On every path the operation's outcome never
depends on the close outcome, and `closePage` itself always resolves,
swallowing any close error. -/
theorem page_close_invariant_amended {ε α : Type}
    (create : CreateOutcome ε) (isClosed : Bool) (close : Except ε Unit)
    (content : Except ε String) (render : RenderCall → Except ε (List α))
    (o : PdfOptions) (b : PdfBody)
    (shoot : ScreenshotCall → Except ε (List α)) (so : ScreenshotOptions)
    (page : Option Nat) :
    openEvents (htmlOp (α := α) create isClosed close content).1 =
      (match create with
       | .noPage _ => []
       | .failedAfterOpen pid _ => [pid]
       | .ok pid => [pid]) ∧
    closeEvents (htmlOp (α := α) create isClosed close content).1 =
      (match create with
       | .noPage _ => []
       | .failedAfterOpen _ _ => []
       | .ok pid => if isClosed then [] else [pid]) ∧
    (htmlOp (α := α) create isClosed close content).2 =
      (match create with
       | .noPage e => .error e
       | .failedAfterOpen _ e => .error e
       | .ok _ => content) ∧
    openEvents (pdfOp create isClosed close render o b).1 =
      (match create with
       | .noPage _ => []
       | .failedAfterOpen pid _ => [pid]
       | .ok pid => [pid]) ∧
    closeEvents (pdfOp create isClosed close render o b).1 =
      (match create with
       | .noPage _ => []
       | .failedAfterOpen _ _ => []
       | .ok pid => if isClosed then [] else [pid]) ∧
    (pdfOp create isClosed close render o b).2 =
      (match create with
       | .noPage e => .error (PdfError.engine e)
       | .failedAfterOpen _ e => .error (PdfError.engine e)
       | .ok _ => (pdfRun render o b).2) ∧
    openEvents (screenshotOp create isClosed close shoot so).1 =
      (match create with
       | .noPage _ => []
       | .failedAfterOpen pid _ => [pid]
       | .ok pid => [pid]) ∧
    closeEvents (screenshotOp create isClosed close shoot so).1 =
      (match create with
       | .noPage _ => []
       | .failedAfterOpen _ _ => []
       | .ok pid => if isClosed then [] else [pid]) ∧
    (screenshotOp create isClosed close shoot so).2 =
      (match create with
       | .noPage e => .error e
       | .failedAfterOpen _ e => .error e
       | .ok _ =>
          (match shoot (screenshotCallOf so) with
           | .error e => .error e
           | .ok buffer => .ok (so.screenshotType, buffer))) ∧
    (closePageR page isClosed close).2 = .ok () := by
  have hclose : ∀ (p : Option Nat), (closePageR p isClosed close).2 = .ok () := by
    rintro (_ | pid)
    · rfl
    · rcases isClosed with _ | _ <;> rcases close with e | u <;>
        simp [closePageR, swallow]
  refine ⟨?_, ?_, ?_, ?_, ?_, ?_, ?_, ?_, ?_, hclose page⟩
  · rcases hc : create with e | ⟨pid, e⟩ | pid <;>
      rcases isClosed with _ | _ <;>
        simp [htmlOp, withPage, closePageR, openEvents, List.filterMap_cons]
  · rcases hc : create with e | ⟨pid, e⟩ | pid <;>
      rcases isClosed with _ | _ <;>
        simp [htmlOp, withPage, closePageR, closeEvents, List.filterMap_cons]
  · rcases hc : create with e | ⟨pid, e⟩ | pid <;> simp [htmlOp, withPage]
  · rcases hc : create with e | ⟨pid, e⟩ | pid
    · simp [pdfOp, withPage, closePageR, openEvents]
    · simp [pdfOp, withPage, closePageR, openEvents, List.filterMap_cons]
    · rcases isClosed with _ | _ <;>
        simp [pdfOp, withPage, closePageR, openEvents_pageOpened_cons,
          openEvents_append, openEvents_pdfRun, openEvents_map_close,
          openEvents_nil, openEvents_close_singleton]
  · rcases hc : create with e | ⟨pid, e⟩ | pid
    · simp [pdfOp, withPage, closePageR, closeEvents]
    · simp [pdfOp, withPage, closePageR, closeEvents, List.filterMap_cons]
    · rcases isClosed with _ | _ <;>
        simp [pdfOp, withPage, closePageR, closeEvents_pageOpened_cons,
          closeEvents_append, closeEvents_nil, closeEvents_pdfRun,
          closeEvents_map_close, closeEvents_singleton]
  · rcases hc : create with e | ⟨pid, e⟩ | pid <;> simp [pdfOp, withPage]
  · rcases hc : create with e | ⟨pid, e⟩ | pid
    · simp [screenshotOp, withPage, closePageR, openEvents]
    · simp [screenshotOp, withPage, closePageR, openEvents, List.filterMap_cons]
    · rcases hs : shoot (screenshotCallOf so) with e | buffer <;>
        rcases isClosed with _ | _ <;>
          simp [screenshotOp, withPage, closePageR, openEvents, hs,
            List.filterMap_cons, List.filterMap_append]
  · rcases hc : create with e | ⟨pid, e⟩ | pid
    · simp [screenshotOp, withPage, closePageR, closeEvents]
    · simp [screenshotOp, withPage, closePageR, closeEvents, List.filterMap_cons]
    · rcases hs : shoot (screenshotCallOf so) with e | buffer <;>
        rcases isClosed with _ | _ <;>
          simp [screenshotOp, withPage, closePageR, closeEvents, hs,
            List.filterMap_cons, List.filterMap_append]
  · rcases hc : create with e | ⟨pid, e⟩ | pid
    · simp [screenshotOp, withPage]
    · simp [screenshotOp, withPage]
    · rcases hs : shoot (screenshotCallOf so) with e | buffer <;>
        simp [screenshotOp, withPage, hs]

/-- C6 counterexample: store `"x"` under `"k"` at time 0, read it once
successfully, and a second immediate read of the same key still returns the
stored entry — `getFromCache` does not delete a live entry on read, so the
claimed delete-on-read behaviour is false. -/
theorem cache_second_read_not_deleted :
    (getFromCache (addToCache emptyCache 0 "k" "x") 0 "k").1 =
      GetResultJs.entry ⟨"x", 60000⟩ ∧
    (getFromCache
        ((getFromCache (addToCache emptyCache 0 "k" "x") 0 "k").2) 0 "k").1 =
      GetResultJs.entry ⟨"x", 60000⟩ ∧
    (GetResultJs.entry ⟨"x", 60000⟩ ≠ GetResultJs.nullv ∧
     GetResultJs.entry ⟨"x", 60000⟩ ≠ GetResultJs.undefinedV) := by
  refine ⟨by decide, by decide, by decide, by decide⟩

/-- C6 (amended): a read immediately after the store returns the stored
content; a read after the expiry timestamp returns nothing and removes the
entry; but a successful read does not delete the entry — a second immediate
read of the same key returns the same stored content (deletion on read is
performed by the submit handler after rendering, not by the cache read). -/
theorem cache_roundtrip (c : Cache) (now later : Nat) (key html : String) :
    (getFromCache (addToCache c now key html) now key).1 =
      GetResultJs.entry ⟨html, now + 60000⟩ ∧
    (now + 60000 < later →
      (getFromCache (addToCache c now key html) later key).1 =
        GetResultJs.nullv ∧
      (getFromCache (addToCache c now key html) later key).2 key = none) ∧
    (getFromCache
        ((getFromCache (addToCache c now key html) now key).2) now key).1 =
      GetResultJs.entry ⟨html, now + 60000⟩ := by
  have hv : ¬ (now + 1 * 60 * 1000 < now) := by omega
  refine ⟨?_, ?_, ?_⟩
  · simp [getFromCache, jsRead, addToCache, hv]
  · intro hl
    have hv2 : now + 1 * 60 * 1000 < later := by omega
    constructor <;> simp [getFromCache, jsRead, addToCache, hv2]
  · simp [getFromCache, jsRead, addToCache, hv]

/-- Witness for the amended C6 at a concrete input. -/
theorem cache_roundtrip_witness :
    (getFromCache (addToCache emptyCache 0 "k" "x") 0 "k").1 =
      GetResultJs.entry ⟨"x", 60000⟩ ∧
    (getFromCache (addToCache emptyCache 0 "k" "x") 60001 "k").1 =
      GetResultJs.nullv := by
  have h := cache_roundtrip emptyCache 0 60001 "k" "x"
  exact ⟨h.1, (h.2.1 (by omega)).1⟩

theorem splitOnChar_ne_nil (sep : Char) (l : List Char) : splitOnChar sep l ≠ [] := by
  induction l with
  | nil => simp [splitOnChar]
  | cons c cs ih =>
    unfold splitOnChar
    by_cases hc : c = sep
    · simp [hc]
    · rcases hsp : splitOnChar sep cs with _ | ⟨g, gs⟩
      · exact absurd hsp ih
      · simp [hc, hsp]

theorem splitOnChar_of_not_mem (sep : Char) (l : List Char) (h : sep ∉ l) :
    splitOnChar sep l = [l] := by
  induction l with
  | nil => rfl
  | cons c cs ih =>
    have hc : ¬ (c = sep) := fun hh => h (by rw [hh]; exact List.mem_cons_self sep cs)
    have hcs : sep ∉ cs := fun hh => h (List.mem_cons_of_mem c hh)
    unfold splitOnChar
    simp [hc, ih hcs]

theorem splitOnChar_two_le_of_mem (sep : Char) (l : List Char) (h : sep ∈ l) :
    2 ≤ (splitOnChar sep l).length := by
  induction l with
  | nil => cases h
  | cons c cs ih =>
    unfold splitOnChar
    by_cases hc : c = sep
    · rcases hr : splitOnChar sep cs with _ | ⟨g, gs⟩
      · exact absurd hr (splitOnChar_ne_nil sep cs)
      · simp [hc, hr]
    · have hcs : sep ∈ cs := by
        rcases List.mem_cons.mp h with h1 | h2
        · exact absurd h1.symm hc
        · exact h2
      rcases hr : splitOnChar sep cs with _ | ⟨g, gs⟩
      · exact absurd hr (splitOnChar_ne_nil sep cs)
      · have hlen := ih hcs
        rw [hr] at hlen
        simp at hlen
        simp [hc, hr]
        omega

theorem takeWhile_append_last_false {β : Type} (p : β → Bool) (xs : List β) (x : β)
    (hx : p x = false) : (xs ++ [x]).takeWhile p = xs.takeWhile p := by
  rw [List.takeWhile_append]
  by_cases h : (List.takeWhile p xs).length = xs.length
  · rw [if_pos h]
    have hxs : List.takeWhile p xs = xs := (List.takeWhile_prefix p).eq_of_length h
    simp [List.takeWhile_cons, hx, hxs]
  · rw [if_neg h]

theorem takeWhile_append_last_true {β : Type} (p : β → Bool) (xs : List β) (x : β)
    (hall : ∀ y ∈ xs, p y = true) (hx : p x = true) :
    (xs ++ [x]).takeWhile p = xs ++ [x] := by
  have hxs : List.takeWhile p xs = xs := List.takeWhile_eq_self_iff.mpr hall
  rw [List.takeWhile_append, if_pos (by rw [hxs])]
  simp [List.takeWhile_cons, hx]

theorem takeWhile_append_last_of_not_all {β : Type} (p : β → Bool) (xs : List β)
    (x : β) (h : ¬ ∀ y ∈ xs, p y = true) :
    (xs ++ [x]).takeWhile p = xs.takeWhile p := by
  rw [List.takeWhile_append, if_neg ?_]
  intro hlen
  exact h (List.takeWhile_eq_self_iff.mp ((List.takeWhile_prefix p).eq_of_length hlen))

/-- The popped last element of the slash-split path (code side) equals the
suffix of the path after its final slash (spec side). -/
theorem pop_split_eq_lastSegment (sep : Char) (l : List Char) :
    (splitOnChar sep l).getLastD [] =
      (l.reverse.takeWhile (fun c => c ≠ sep)).reverse := by
  induction l with
  | nil => rfl
  | cons c cs ih =>
    unfold splitOnChar
    rw [List.reverse_cons]
    by_cases hc : c = sep
    · subst hc
      rw [if_pos rfl, List.getLastD_cons,
        takeWhile_append_last_false _ _ _ (by simp)]
      exact ih
    · rw [if_neg hc]
      by_cases hmem : sep ∈ cs
      · rcases hr : splitOnChar sep cs with _ | ⟨g, gs⟩
        · exact absurd hr (splitOnChar_ne_nil sep cs)
        · have hlen := splitOnChar_two_le_of_mem sep cs hmem
          rw [hr] at hlen
          rcases gs with _ | ⟨g2, gs2⟩
          · simp at hlen
          · have hnotall :
                ¬ ∀ y ∈ cs.reverse, (fun x => decide (x ≠ sep)) y = true := by
              intro hall
              have h2 := hall sep (List.mem_reverse.mpr hmem)
              simp at h2
            rw [takeWhile_append_last_of_not_all _ _ _ hnotall, ← ih, hr]
            simp only [List.getLastD_cons]
      · have hall : ∀ y ∈ cs.reverse, (fun x => decide (x ≠ sep)) y = true := by
          intro y hy
          have hmemy : y ∈ cs := List.mem_reverse.mp hy
          simp only [decide_eq_true_eq]
          exact fun hh => hmem (hh ▸ hmemy)
        rw [splitOnChar_of_not_mem sep cs hmem,
          takeWhile_append_last_true _ _ _ hall (by simp [hc])]
        simp

/-- The code's extension-strip step (an `Int` test against the JS `-1`
sentinel) equals the spec-worded `stripFinalExt`. -/
theorem strip_eq_stripFinalExt (fn : List Char) :
    (if 0 < jsLastIndexOf '.' fn then fn.take (jsLastIndexOf '.' fn).toNat
     else fn) = stripFinalExt fn := by
  unfold jsLastIndexOf stripFinalExt
  rcases h : lastIndexOfAux '.' fn with _ | i
  · simp
  · by_cases hi : 0 < i
    · simp [hi]
    · simp [hi]

/-- C7 counterexample: for the URL `http://example.com/a/` the path is
`/a/`, whose last path segment is empty; the code falls back to the
slash-stripped path and derives `a.pdf`, while the claimed rule ("the last
path segment with its final extension stripped") yields `.pdf`. -/
theorem deriveFilename_claim_cex :
    deriveFilename "example.com".toList "/a/".toList = "a.pdf".toList ∧
    claimFilename "example.com".toList "/a/".toList = ".pdf".toList ∧
    deriveFilename "example.com".toList "/a/".toList ≠
      claimFilename "example.com".toList "/a/".toList := by
  refine ⟨by decide, by decide, by decide⟩

/-- C7 (amended): for every request URL, the derived filename follows the
claimed rule amended only in that, when the path ends in a slash (so its
last segment is empty), the name is the path with all slashes removed before
extension stripping.  The spec's two exemplar derivations are included. -/
theorem deriveFilename_matches_amended_claim (hostname pathname : List Char) :
    deriveFilename hostname pathname = claimFilenameAmended hostname pathname ∧
    deriveFilename "example.com".toList "/reports/q1.data".toList =
      "q1.pdf".toList ∧
    deriveFilename "example.com".toList "/".toList = "example.com.pdf".toList := by
  refine ⟨?_, by decide, by decide⟩
  unfold deriveFilename claimFilenameAmended deriveBaseFilename lastSegment
  by_cases hroot : pathname = ['/']
  · simp [hroot]
  · simp only [if_neg hroot]
    simp only [pop_split_eq_lastSegment, strip_eq_stripFinalExt]

/-- C8: for every supplied string `s`, the pdf render calls coerce
`printBackground` and `landscape`, and the screenshot call coerces
`fullPage` and `omitBackground`, to `true` exactly when `s` is the literal
`"true"` (the final conjunct ties the boolean test to propositional
equality, so any other string yields `false`). -/
theorem string_flag_coercion (s : String) (o : PdfOptions) (so : ScreenshotOptions)
    (ft : String) (m1 m2 : Option String) :
    (singlePassCall { o with printBackground := some s }).printBackground =
      (s == "true") ∧
    (singlePassCall { o with landscape := some s }).landscape = (s == "true") ∧
    (passACall { o with printBackground := some s } ft m1).printBackground =
      (s == "true") ∧
    (passACall { o with landscape := some s } ft m1).landscape = (s == "true") ∧
    (passBCall { o with printBackground := some s } ft m2).printBackground =
      (s == "true") ∧
    (passBCall { o with landscape := some s } ft m2).landscape = (s == "true") ∧
    (screenshotCallOf { so with fullPage := some s }).fullPage = (s == "true") ∧
    (screenshotCallOf { so with omitBackground := some s }).omitBackground =
      (s == "true") ∧
    ((s == "true") = true ↔ s = "true") := by
  exact ⟨rfl, rfl, rfl, rfl, rfl, rfl, rfl, rfl, beq_iff_eq⟩

/-- C9: the gateway answers 400 with the plain-text hint and performs no
renderer invocation when `url` is missing or empty; and whenever the
dispatched renderer operation (pdf, screenshot, or html) rejects, the
request lands in the error middleware and yields the 500 response with the
generic message. -/
theorem gateway_400_and_500 {ε : Type}
    (parseURL : String → Except ε (String × String))
    (renderPdf : String → Except ε String)
    (renderShot : String → Except ε (Option String × String))
    (renderHtml : String → Except ε String)
    (req : GatewayReq) (u : String) :
    (jsFalsyOpt req.url = true →
      gatewayHandle parseURL renderPdf renderShot renderHtml req =
        ([], hint400)) ∧
    (∀ (e : ε) (hp : String × String),
      req.url = some u → jsFalsyOpt req.url = false → req.type = some "pdf" →
      parseURL (normalizeUrl u) = .ok hp →
      renderPdf (normalizeUrl u) = .error e →
      (gatewayHandle parseURL renderPdf renderShot renderHtml req).2 = err500) ∧
    (∀ e : ε,
      req.url = some u → jsFalsyOpt req.url = false →
      req.type = some "screenshot" →
      renderShot (normalizeUrl u) = .error e →
      (gatewayHandle parseURL renderPdf renderShot renderHtml req).2 = err500) ∧
    (∀ e : ε,
      req.url = some u → jsFalsyOpt req.url = false →
      req.type ≠ some "pdf" → req.type ≠ some "screenshot" →
      renderHtml (normalizeUrl u) = .error e →
      (gatewayHandle parseURL renderPdf renderShot renderHtml req).2 = err500) := by
  refine ⟨?_, ?_, ?_, ?_⟩
  · intro hf
    simp [gatewayHandle, hf]
  · intro e hp hu hf ht hparse hpdf
    rcases hp with ⟨hostname, pathname⟩
    rw [hu] at hf
    simp [gatewayHandle, hf, hu, ht, hparse, hpdf]
  · intro e hu hf ht hshot
    rw [hu] at hf
    simp [gatewayHandle, hf, hu, ht, hshot]
  · intro e hu hf hnp hns hhtml
    rw [hu] at hf
    simp [gatewayHandle, hf, hu, hnp, hns, hhtml]

/-- Witness for C9 at concrete inputs. -/
theorem gateway_400_and_500_witness :
    gatewayHandle (ε := Unit) (fun _ => .ok ("example.com", "/"))
      (fun _ => .error ()) (fun _ => .ok (none, "b")) (fun _ => .ok "h")
      ⟨none, some "pdf", none⟩ = ([], hint400) ∧
    (gatewayHandle (ε := Unit) (fun _ => .ok ("example.com", "/"))
      (fun _ => .error ()) (fun _ => .ok (none, "b")) (fun _ => .ok "h")
      ⟨some "x", some "pdf", none⟩).2 = err500 := by
  constructor
  · exact (gateway_400_and_500 (ε := Unit) (fun _ => .ok ("example.com", "/"))
      (fun _ => .error ()) (fun _ => .ok (none, "b")) (fun _ => .ok "h")
      ⟨none, some "pdf", none⟩ "x").1 rfl
  · exact (gateway_400_and_500 (ε := Unit) (fun _ => .ok ("example.com", "/"))
      (fun _ => .error ()) (fun _ => .ok (none, "b")) (fun _ => .ok "h")
      ⟨some "x", some "pdf", none⟩ "x").2.1 () ("example.com", "/")
      rfl rfl rfl rfl rfl

/-- C10 counterexample: `GET /?key=constructor` with nothing stored —
`htmlCache["constructor"]` resolves through the prototype chain to the
truthy inherited `Object` constructor, `found.validUntil` is undefined so
the expiry test is false and `getFromCache` returns the inherited value;
`rep.html` is then undefined without throwing, and the handler answers
`"invalid key"` with status 200 for a missing key, never reaching the 500
error handler — refuting both halves of the claim. -/
theorem getHandler_proto_key_cex :
    emptyCache "constructor" = none ∧
    (getFromCache emptyCache 0 "constructor").1 = GetResultJs.protoMember ∧
    (getCacheHandler emptyCache 0 "constructor").1 = GetOutcome.invalidKey ∧
    (getEndpointResponse emptyCache 0 "constructor").status = 200 := by
  refine ⟨rfl, by decide, by decide, by decide⟩

/-- C10 (amended): on the `GET /` cache-fetch endpoint, a key that is
absent from the cache and does not name an `Object.prototype` property — or
whose entry has expired — makes the handler read `.html` of null/undefined,
so the request throws and reaches the 500 error handler; an absent key that
does name an `Object.prototype` property yields the truthy inherited
member, whose `.html` is undefined, so the handler answers `"invalid key"`
with status 200 without throwing; the `"invalid key"` branch is reachable
exactly for those prototype-named missing keys and for live entries whose
stored html is falsy. -/
theorem getHandler_missing_or_expired_amended (c : Cache) (now : Nat) (key : String) :
    (c key = none → key ∉ objectProtoKeys →
      (getCacheHandler c now key).1 = .thrown ∧
      (getEndpointResponse c now key).status = 500) ∧
    (∀ entry : CacheEntry, c key = some entry → entry.validUntil < now →
      (getCacheHandler c now key).1 = .thrown ∧
      (getEndpointResponse c now key).status = 500) ∧
    (c key = none → key ∈ objectProtoKeys →
      (getCacheHandler c now key).1 = .invalidKey ∧
      (getEndpointResponse c now key).status = 200) ∧
    ((getCacheHandler c now key).1 = .invalidKey →
      (∃ entry : CacheEntry,
        c key = some entry ∧ ¬ entry.validUntil < now ∧ entry.html = "") ∨
      (c key = none ∧ key ∈ objectProtoKeys)) := by
  refine ⟨?_, ?_, ?_, ?_⟩
  · intro h hproto
    constructor <;>
      simp [getCacheHandler, getEndpointResponse, getFromCache, jsRead,
        err500, h, hproto]
  · intro entry h hexp
    constructor <;>
      simp [getCacheHandler, getEndpointResponse, getFromCache, jsRead,
        err500, h, hexp]
  · intro h hproto
    constructor <;>
      simp [getCacheHandler, getEndpointResponse, getFromCache, jsRead,
        h, hproto]
  · intro h
    rcases hck : c key with _ | entry
    · by_cases hproto : key ∈ objectProtoKeys
      · exact Or.inr ⟨rfl, hproto⟩
      · rw [show getCacheHandler c now key = (GetOutcome.thrown, c) from by
            simp [getCacheHandler, getFromCache, jsRead, hck, hproto]] at h
        cases h
    · by_cases hexp : entry.validUntil < now
      · rw [show getCacheHandler c now key =
            (GetOutcome.thrown, fun k => if k = key then none else c k) from by
            simp [getCacheHandler, getFromCache, jsRead, hck, hexp]] at h
        cases h
      · by_cases hh : entry.html = ""
        · exact Or.inl ⟨entry, rfl, hexp, hh⟩
        · rw [show getCacheHandler c now key =
              (GetOutcome.htmlResp entry.html, c) from by
              simp [getCacheHandler, getFromCache, jsRead, hck, hexp, hh]] at h
          cases h

/-- Witness for the amended C10 at concrete inputs: a missing key outside
`Object.prototype` throws into the 500 handler; the missing key
`"constructor"` takes the `"invalid key"` branch with status 200. -/
theorem getHandler_missing_or_expired_amended_witness :
    ((getCacheHandler emptyCache 0 "k").1 = .thrown ∧
     (getEndpointResponse emptyCache 0 "k").status = 500) ∧
    ((getCacheHandler emptyCache 0 "constructor").1 = .invalidKey ∧
     (getEndpointResponse emptyCache 0 "constructor").status = 200) := by
  constructor
  · exact (getHandler_missing_or_expired_amended emptyCache 0 "k").1 rfl
      (by decide)
  · exact (getHandler_missing_or_expired_amended
      emptyCache 0 "constructor").2.2.1 rfl (by decide)
